import Mathlib

/-!
Shallow embedding of the `asl-translator` backend (three Python files:
`backend/app.py`, `backend/extract_landmarks.py`, `backend/train_model.py`)
together with theorems settling the specification claims.

External libraries (OpenCV decoding, the MediaPipe hand detector, the
scikit-learn classifier) are modelled as explicit function parameters; the
repository's own logic (feature flattening, the `/predict` handler branches,
the static-file route, the trainer's fold computation) is translated
line-for-line.  Probabilities and coordinates are modelled as rationals.
-/

namespace ASL

/-- Model of MediaPipe's landmark record: each detected keypoint carries
normalized `x`, `y` and also a depth `z` field that the repository never
reads. -/
structure Landmark where
  x : Rat
  y : Rat
  z : Rat
deriving DecidableEq, Repr

/-- A detected hand is the `landmark` list of a `multi_hand_landmarks` entry
(21 points in MediaPipe, though the code never checks the count). -/
abbrev Hand := List Landmark

/-- Opaque stand-in for a decoded OpenCV image. -/
abbrev Img := Nat

/-- Opaque stand-in for uploaded raw bytes. -/
abbrev Bytes := List Nat

/-- Model of the one-row `pandas.DataFrame` built in `extract_landmarks`
(`app.py`): the column names and the single data row. -/
structure DataFrame where
  columns : List String
  row : List Rat
deriving DecidableEq, Repr

/-- From `app.py`, `normalize_landmarks`: subtract the wrist (landmark 0)
from every landmark, returning a list of two-element lists, exactly as the
Python list-of-lists.  Dead code on the inference path. -/
def normalize_landmarks (landmarks : Hand) : List (List Rat) :=
  let wrist := landmarks.getD 0 ⟨0, 0, 0⟩
  landmarks.map (fun lm => [lm.x - wrist.x, lm.y - wrist.y])

/-- The `coords` accumulation in `extract_landmarks` (`app.py`): for each
landmark extend the list with `[lm.x, lm.y]`. -/
def flattenCoords (hand : Hand) : List Rat :=
  hand.flatMap (fun lm => [lm.x, lm.y])

/-- The `feature_names` loop in `extract_landmarks` (`app.py`):
`x0, y0, x1, y1, ..., x20, y20`. -/
def feature_names : List String :=
  (List.range 21).flatMap (fun i => [s!"x{i}", s!"y{i}"])

/-- From `app.py`, `extract_landmarks`: convert colours, run the detector,
return `none` when `multi_hand_landmarks` is empty, otherwise flatten the
first hand into a one-row DataFrame with the fixed column names.  The colour
conversion `cv2.cvtColor` and the detector `hands.process` are external and
passed as parameters. -/
def extract_landmarks (cvtColor : Img → Img) (process : Img → List Hand)
    (img_bgr : Img) : Option DataFrame :=
  let img_rgb := cvtColor img_bgr
  match process img_rgb with
  | [] => none
  | hand_landmarks :: _ =>
      some ⟨feature_names, flattenCoords hand_landmarks⟩

/-- The CSV header written by `extract_landmarks.py` (the Dataset Builder):
the same 42 coordinate names followed by `label`. -/
def csvHeader : List String :=
  ((List.range 21).flatMap (fun i => [s!"x{i}", s!"y{i}"])) ++ ["label"]

/-- Model of `np.argmax` on a probability row: index of the first occurrence
of the maximum value (0 on the empty list, as a total function). -/
def argmaxAux : List Rat → Nat → Nat → Rat → Nat
  | [], _, bestIdx, _ => bestIdx
  | v :: rest, i, bestIdx, bestVal =>
      if bestVal < v then argmaxAux rest (i + 1) i v
      else argmaxAux rest (i + 1) bestIdx bestVal

/-- First index of the maximum, as `np.argmax` computes it. -/
def argmax : List Rat → Nat
  | [] => 0
  | v :: rest => argmaxAux rest 1 0 v

/-- Model of `np.argsort` on a probability row: the indices `0..n-1` sorted
so that the probabilities read in that order are ascending (stable sort,
matching NumPy's kind='stable'; NumPy's default leaves tie order
unspecified, so any value-ascending order is a faithful model). -/
def argsort (probs : List Rat) : List Nat :=
  (List.range probs.length).mergeSort (fun i j => probs.getD i 0 ≤ probs.getD j 0)

/-- The `top_predictions` list construction in `predict` (`app.py`):
`[{label: classes_[i], confidence: probs[i]} for i in np.argsort(probs)[-3:][::-1]]`.
Python's `l[-3:]` keeps the last three elements (the whole list when shorter),
i.e. drops `length - 3` from the front; `[::-1]` reverses. -/
def top_predictions (classes : List String) (probs : List Rat) :
    List (String × Rat) :=
  (((argsort probs).drop ((argsort probs).length - 3)).reverse).map
    (fun i => (classes.getD i "", probs.getD i 0))

/-- The JSON bodies `predict` can return, one constructor per distinct
`jsonify` shape in `app.py`:
`{"error": msg}`; `{"prediction": null, "message": "no hand detected"}`;
`{"prediction": null, "message": "low confidence (p)", "top_predictions": t}`;
`{"prediction": label, "confidence": c, "top_predictions": t}`. -/
inductive RespBody where
  | errorBody (msg : String)
  | noHand
  | lowConf (bestProb : Rat) (top : List (String × Rat))
  | predicted (label : String) (confidence : Rat) (top : List (String × Rat))
deriving DecidableEq, Repr

/-- The `prediction` field of a response body: `none` models JSON null or an
absent field. -/
def RespBody.prediction : RespBody → Option String
  | .predicted label _ _ => some label
  | _ => none

/-- An HTTP response: status code and JSON body. -/
abbrev Response := Nat × RespBody

/-- From `app.py`, the `/predict` handler.  External effects are parameters:
`frame` is the multipart field when present, `imdecode` models
`cv2.imdecode` (`none` = undecodable), `cvtColor` and `process` model the
detector pipeline, `classes` models `model.classes_`, and `predict_proba`
models the classifier call inside the `try` block — `Except.error e` models
a raised exception with text `e`.  Every branch mirrors one `return` of the
Python handler. -/
def predict (frame : Option Bytes) (imdecode : Bytes → Option Img)
    (cvtColor : Img → Img) (process : Img → List Hand)
    (classes : List String)
    (predict_proba : DataFrame → Except String (List Rat)) : Response :=
  match frame with
  | none => (400, .errorBody "missing frame")
  | some img_bytes =>
    match imdecode img_bytes with
    | none => (400, .errorBody "invalid image")
    | some img =>
      match extract_landmarks cvtColor process img with
      | none => (200, .noHand)
      | some landmarks =>
        match predict_proba landmarks with
        | .error e => (500, .errorBody e)
        | .ok probs =>
          let best_idx := argmax probs
          let best_label := classes.getD best_idx ""
          let best_prob := probs.getD best_idx 0
          let confidence_threshold : Rat := 3 / 10
          if best_prob < confidence_threshold then
            (200, .lowConf best_prob (top_predictions classes probs))
          else
            (200, .predicted best_label best_prob (top_predictions classes probs))

/-- Responses of the static-file route: either serve the named file from the
frontend directory or return the 404 JSON error. -/
inductive StaticResponse where
  | serveFile (path : List Char)
  | notFound
deriving DecidableEq, Repr

/-- Character-list spelling of a short string literal, to make substring
facts about request paths directly computable. -/
def chars (s : String) : List Char := s.data

/-- The `allowed` tuple in `frontend_static` (`app.py`). -/
def allowedFiles : List (List Char) :=
  [chars "index.html", chars "script.js", chars "style.css"]

/-- Model of `path.startswith("assets/")`. -/
def startsWithAssets : List Char → Bool
  | 'a' :: 's' :: 's' :: 'e' :: 't' :: 's' :: '/' :: _ => true
  | _ => false

/-- Model of Python's `".." in path`: some position of the path starts two
consecutive dots. -/
def hasDotDot : List Char → Bool
  | '.' :: '.' :: _ => true
  | _ :: rest => hasDotDot rest
  | [] => false

/-- From `app.py`, the `/<path:path>` route `frontend_static`: 404 when the
frontend directory is absent; serve the three known files; serve anything
under `assets/` containing no `..`; otherwise 404. -/
def frontend_static (frontendDirExists : Bool) (path : List Char) :
    StaticResponse :=
  if !frontendDirExists then .notFound
  else if path ∈ allowedFiles then .serveFile path
  else if startsWithAssets path && !hasDotDot path then .serveFile path
  else .notFound

/-- From `train_model.py`: `class_counts.min()` — the least per-class sample
count of the raw dataset (counts come from `value_counts`, one positive
entry per class). -/
def countsMin (counts : List Nat) : Nat :=
  counts.foldr min (counts.getD 0 0)

/-- From `train_model.py`: the classes kept after dropping those with fewer
than `MIN_SAMPLES_PER_CLASS = 10` samples. -/
def filteredCounts (counts : List Nat) : List Nat :=
  counts.filter (fun c => decide (10 ≤ c))

/-- From `train_model.py`, the fold computation: `cv_folds = 5`, then
`if class_counts.min() < cv_folds: cv_folds = max(2, int(class_counts.min()))`.
`class_counts` is computed from the raw CSV before the rare-class filter and
never recomputed. -/
def cv_folds (counts : List Nat) : Nat :=
  let folds := 5
  if countsMin counts < folds then max 2 (countsMin counts) else folds

/-- Modelled from the claim's words (for comparison with `cv_folds`): folds
are 5 unless some class remaining after the filter has fewer than 5 samples,
in which case they drop to the smallest remaining class size, but never
below 2. -/
def cv_folds_claim (counts : List Nat) : Nat :=
  let remaining := filteredCounts counts
  if countsMin remaining < 5 then max 2 (countsMin remaining) else 5

/-! Helper lemmas about the embedded operations. -/

theorem flattenCoords_length (hand : Hand) :
    (flattenCoords hand).length = 2 * hand.length := by
  induction hand with
  | nil => rfl
  | cons lm t ih =>
      simp only [flattenCoords, List.flatMap_cons, List.length_append,
        List.length_cons, List.length_nil] at *
      omega

theorem flattenCoords_getD (hand : Hand) :
    ∀ i, i < hand.length →
      (flattenCoords hand).getD (2 * i) 0 = (hand.getD i ⟨0, 0, 0⟩).x ∧
      (flattenCoords hand).getD (2 * i + 1) 0 = (hand.getD i ⟨0, 0, 0⟩).y := by
  induction hand with
  | nil => intro i hi; simp at hi
  | cons lm t ih =>
      intro i hi
      cases i with
      | zero => exact ⟨rfl, rfl⟩
      | succ j =>
          have hj : j < t.length := by simpa using hi
          have := ih j hj
          have h2 : 2 * (j + 1) = (2 * j + 1) + 1 := by omega
          simpa [flattenCoords, h2, List.getD] using this

theorem flattenCoords_congr (h1 h2 : Hand)
    (h : h1.map (fun lm => (lm.x, lm.y)) = h2.map (fun lm => (lm.x, lm.y))) :
    flattenCoords h1 = flattenCoords h2 := by
  induction h1 generalizing h2 with
  | nil => cases h2 with
      | nil => rfl
      | cons b t2 => simp at h
  | cons a t1 ih =>
      cases h2 with
      | nil => simp at h
      | cons b t2 =>
          simp only [List.map_cons, List.cons.injEq, Prod.mk.injEq] at h
          obtain ⟨⟨hx, hy⟩, ht⟩ := h
          have htail := ih t2 ht
          simp only [flattenCoords, List.flatMap_cons] at htail ⊢
          rw [hx, hy, htail]

theorem le_foldl_max (l : List Rat) : ∀ a : Rat, a ≤ l.foldl max a := by
  induction l with
  | nil => intro a; exact le_refl a
  | cons v t ih =>
      intro a
      exact le_trans (le_max_left a v) (ih (max a v))

theorem mem_le_foldl_max (l : List Rat) :
    ∀ (a q : Rat), q ∈ l → q ≤ l.foldl max a := by
  induction l with
  | nil => intro a q hq; simp at hq
  | cons v t ih =>
      intro a q hq
      rcases List.mem_cons.mp hq with h | h
      · subst h
        exact le_trans (le_max_right a q) (le_foldl_max t (max a q))
      · exact ih (max a v) q h

theorem foldl_max_le (l : List Rat) :
    ∀ (a p : Rat), a ≤ p → (∀ q ∈ l, q ≤ p) → l.foldl max a ≤ p := by
  induction l with
  | nil => intro a p ha _; exact ha
  | cons v t ih =>
      intro a p ha hq
      exact ih (max a v) p (max_le ha (hq v (List.mem_cons_self v t)))
        (fun q hqt => hq q (List.mem_cons_of_mem v hqt))

theorem argmaxAux_getD (full : List Rat) :
    ∀ (rest : List Rat) (i bi : Nat) (bv : Rat),
      full.drop i = rest → bi < full.length → full.getD bi 0 = bv →
      argmaxAux rest i bi bv < full.length ∧
      full.getD (argmaxAux rest i bi bv) 0 = rest.foldl max bv := by
  intro rest
  induction rest with
  | nil => intro i bi bv _ hbi hbv; exact ⟨hbi, hbv⟩
  | cons v rs ih =>
      intro i bi bv hdrop hbi hbv
      have hilen : i < full.length := by
        have := congrArg List.length hdrop
        simp only [List.length_drop, List.length_cons] at this
        omega
      have hgi : full.getD i 0 = v := by
        have h0 : full[i]? = some v := by
          have h1 := List.getElem?_drop full i 0
          rw [hdrop] at h1
          simpa using h1.symm
        simp [List.getD_eq_getElem?_getD, h0]
      have hdrop' : full.drop (i + 1) = rs := by
        have := List.drop_drop 1 i full
        rw [hdrop] at this
        simpa using this.symm
      simp only [argmaxAux, List.foldl_cons]
      by_cases hlt : bv < v
      · simp only [hlt, if_true]
        have hmax : max bv v = v := max_eq_right (le_of_lt hlt)
        rw [hmax]
        exact ih (i + 1) i v hdrop' hilen hgi
      · simp only [hlt, if_false]
        have hmax : max bv v = bv := max_eq_left (le_of_not_lt hlt)
        rw [hmax]
        exact ih (i + 1) bi bv hdrop' hbi hbv

theorem argmax_lt_length (l : List Rat) (h : l ≠ []) : argmax l < l.length := by
  cases l with
  | nil => exact absurd rfl h
  | cons v rest =>
      exact (argmaxAux_getD (v :: rest) rest 1 0 v rfl (by simp) rfl).1

theorem getD_argmax_eq_top (l : List Rat) (p : Rat) (hp : p ∈ l)
    (hub : ∀ q ∈ l, q ≤ p) : l.getD (argmax l) 0 = p := by
  cases l with
  | nil => simp at hp
  | cons v rest =>
      have hfold : (v :: rest).getD (argmax (v :: rest)) 0 = rest.foldl max v :=
        (argmaxAux_getD (v :: rest) rest 1 0 v rfl (by simp) rfl).2
      rw [hfold]
      refine le_antisymm ?_ ?_
      · exact foldl_max_le rest v p (hub v (List.mem_cons_self v rest))
          (fun q hq => hub q (List.mem_cons_of_mem v hq))
      · rcases List.mem_cons.mp hp with h | h
        · subst h; exact le_foldl_max rest p
        · exact mem_le_foldl_max rest v p h

theorem argsort_length (probs : List Rat) :
    (argsort probs).length = probs.length := by
  simp [argsort, List.length_mergeSort, List.length_range]

theorem mem_argsort (probs : List Rat) (i : Nat) :
    i ∈ argsort probs ↔ i < probs.length :=
  ((List.mergeSort_perm (List.range probs.length) _).mem_iff).trans List.mem_range

theorem argsort_pairwise (probs : List Rat) :
    List.Pairwise (fun i j => probs.getD i 0 ≤ probs.getD j 0) (argsort probs) := by
  have h := @List.sorted_mergeSort Nat
    (fun i j => decide (probs.getD i 0 ≤ probs.getD j 0))
    (fun a b c hab hbc => by
      simp only [decide_eq_true_iff] at *
      exact le_trans hab hbc)
    (fun a b => by
      simp only [Bool.or_eq_true, decide_eq_true_iff]
      exact le_total _ _)
    (List.range probs.length)
  exact h.imp (fun hab => of_decide_eq_true hab)

theorem top_predictions_eq (classes : List String) (probs : List Rat) :
    top_predictions classes probs
      = ((argsort probs).reverse.take (min 3 probs.length)).map
          (fun i => (classes.getD i "", probs.getD i 0)) := by
  unfold top_predictions
  rw [List.reverse_drop]
  congr 2
  rw [argsort_length]
  omega

/-- Structural facts about the top-3 list: length 3, non-increasing
confidences, and the head entry is built from an index whose probability is
an upper bound of the whole row (assuming at least three classes). -/
theorem top_predictions_spec (classes : List String) (probs : List Rat)
    (h3 : 3 ≤ probs.length) :
    (top_predictions classes probs).length = 3 ∧
    List.Pairwise (fun a b => b.2 ≤ a.2) (top_predictions classes probs) ∧
    ∃ L, L < probs.length ∧
      (top_predictions classes probs).head? =
        some (classes.getD L "", probs.getD L 0) ∧
      (∀ q ∈ probs, q ≤ probs.getD L 0) := by
  rw [top_predictions_eq]
  have hmin : min 3 probs.length = 3 := by omega
  rw [hmin]
  have hrevlen : (argsort probs).reverse.length = probs.length := by
    rw [List.length_reverse, argsort_length]
  have hdesc : List.Pairwise (fun i j => probs.getD j 0 ≤ probs.getD i 0)
      (argsort probs).reverse :=
    List.pairwise_reverse.mpr (argsort_pairwise probs)
  cases hrev : (argsort probs).reverse with
  | nil => rw [hrev] at hrevlen; simp at hrevlen; omega
  | cons L t =>
      have htlen : t.length = probs.length - 1 := by
        rw [hrev] at hrevlen; simp at hrevlen; omega
      have hLmem : L ∈ argsort probs := by
        rw [← List.mem_reverse, hrev]; exact List.mem_cons_self L t
      have hLlt : L < probs.length := (mem_argsort probs L).mp hLmem
      rw [hrev] at hdesc
      have hLub : ∀ x ∈ t, probs.getD x 0 ≤ probs.getD L 0 :=
        (List.pairwise_cons.mp hdesc).1
      refine ⟨?_, ?_, L, hLlt, ?_, ?_⟩
      · rw [List.length_map, List.length_take]
        simp only [List.length_cons]
        omega
      · refine List.pairwise_map.mpr ?_
        exact List.Pairwise.sublist (List.take_sublist 3 (L :: t)) hdesc
      · cases t with
        | nil => simp at htlen; omega
        | cons b t' => rfl
      · intro q hq
        obtain ⟨m, hm, hqm⟩ := List.mem_iff_getElem.mp hq
        have hmmem : m ∈ L :: t := by
          rw [← hrev, List.mem_reverse]
          exact (mem_argsort probs m).mpr hm
        have hqd : probs.getD m 0 = q := by
          rw [List.getD_eq_getElem probs 0 hm, hqm]
        rcases List.mem_cons.mp hmmem with h | h
        · subst h; rw [hqd]
        · rw [← hqd]; exact hLub m h

/-- Reduction of the `/predict` handler on the successful-classification
path: once the frame decodes, a hand is detected and the classifier returns
a probability row, the handler is exactly the threshold test on the argmax
probability. -/
theorem predict_reduce (imdecode : Bytes → Option Img) (cvtColor : Img → Img)
    (process : Img → List Hand) (classes : List String)
    (predict_proba : DataFrame → Except String (List Rat))
    (bytes : Bytes) (img : Img) (df : DataFrame) (probs : List Rat)
    (hdec : imdecode bytes = some img)
    (hdet : extract_landmarks cvtColor process img = some df)
    (hprob : predict_proba df = .ok probs) :
    predict (some bytes) imdecode cvtColor process classes predict_proba
      = if probs.getD (argmax probs) 0 < 3 / 10 then
          (200, .lowConf (probs.getD (argmax probs) 0)
            (top_predictions classes probs))
        else
          (200, .predicted (classes.getD (argmax probs) "")
            (probs.getD (argmax probs) 0) (top_predictions classes probs)) := by
  simp only [predict, hdec, hdet, hprob]

/-! Claim theorems. -/

/-- C2: for every detected hand with 21 landmarks, the feature encoder
produces a vector of exactly 42 values in the fixed column order
`x0, y0, ..., x20, y20` (independent of the image: the columns are the
constant `feature_names`), and this column order is identical to the header
the Dataset Builder writes to the training CSV (whose final extra column is
`label`). -/
theorem C2_feature_vector_shape (cvtColor : Img → Img)
    (process : Img → List Hand) (img : Img) (hand : Hand) (rest : List Hand)
    (hdet : process (cvtColor img) = hand :: rest) (h21 : hand.length = 21) :
    extract_landmarks cvtColor process img
      = some ⟨feature_names, flattenCoords hand⟩ ∧
    (flattenCoords hand).length = 42 ∧
    feature_names ++ ["label"] = csvHeader := by
  refine ⟨?_, ?_, ?_⟩
  · simp only [extract_landmarks, hdet]
  · rw [flattenCoords_length, h21]
  · rfl

/-- Witness for C2 at a concrete 21-landmark hand. -/
theorem C2_feature_vector_shape_witness :
    extract_landmarks id (fun _ => [List.replicate 21 ⟨(1 : Rat)/2, 1/2, 0⟩]) 0
      = some ⟨feature_names, flattenCoords (List.replicate 21 ⟨(1 : Rat)/2, 1/2, 0⟩)⟩ ∧
    (flattenCoords (List.replicate 21 ⟨(1 : Rat)/2, 1/2, 0⟩)).length = 42 ∧
    feature_names ++ ["label"] = csvHeader :=
  C2_feature_vector_shape id (fun _ => [List.replicate 21 ⟨(1 : Rat)/2, 1/2, 0⟩])
    0 (List.replicate 21 ⟨(1 : Rat)/2, 1/2, 0⟩) [] rfl (by decide)

/-- C4: no normalization at serve time.  The feature row fed to the
classifier is exactly the raw interleaving of the detector's `x`/`y`
coordinates (entry `2i` is landmark `i`'s `x` unchanged, entry `2i+1` its
`y` unchanged), and the wrist-relative helper `normalize_landmarks` is a
different transformation (it changes some hand's coordinates), so it is not
applied on the inference path. -/
theorem C4_raw_coordinates_no_normalization (cvtColor : Img → Img)
    (process : Img → List Hand) (img : Img) (hand : Hand) (rest : List Hand)
    (hdet : process (cvtColor img) = hand :: rest) :
    extract_landmarks cvtColor process img
      = some ⟨feature_names, flattenCoords hand⟩ ∧
    (∀ i, i < hand.length →
      (flattenCoords hand).getD (2 * i) 0 = (hand.getD i ⟨0, 0, 0⟩).x ∧
      (flattenCoords hand).getD (2 * i + 1) 0 = (hand.getD i ⟨0, 0, 0⟩).y) ∧
    (∃ h : Hand, flattenCoords h ≠ (normalize_landmarks h).flatten) := by
  refine ⟨?_, flattenCoords_getD hand, ?_⟩
  · simp only [extract_landmarks, hdet]
  · refine ⟨[⟨1, 1, 0⟩, ⟨2, 3, 0⟩], ?_⟩
    simp only [flattenCoords, normalize_landmarks, List.flatMap_cons,
      List.flatMap_nil, List.getD_cons_zero, List.map_cons, List.map_nil,
      List.flatten, List.append_nil, List.cons_append, List.nil_append,
      ne_eq, List.cons.injEq, not_and]
    intro h
    norm_num at h

/-- Witness for C4 at a concrete detected hand. -/
theorem C4_raw_coordinates_no_normalization_witness :
    extract_landmarks id (fun _ => [[⟨(1 : Rat)/4, 3/4, 9⟩]]) 0
      = some ⟨feature_names, flattenCoords [⟨(1 : Rat)/4, 3/4, 9⟩]⟩ ∧
    (∀ i, i < ([⟨(1 : Rat)/4, 3/4, 9⟩] : Hand).length →
      (flattenCoords [⟨(1 : Rat)/4, 3/4, 9⟩]).getD (2 * i) 0
        = (([⟨(1 : Rat)/4, 3/4, 9⟩] : Hand).getD i ⟨0, 0, 0⟩).x ∧
      (flattenCoords [⟨(1 : Rat)/4, 3/4, 9⟩]).getD (2 * i + 1) 0
        = (([⟨(1 : Rat)/4, 3/4, 9⟩] : Hand).getD i ⟨0, 0, 0⟩).y) ∧
    (∃ h : Hand, flattenCoords h ≠ (normalize_landmarks h).flatten) :=
  C4_raw_coordinates_no_normalization id (fun _ => [[⟨(1 : Rat)/4, 3/4, 9⟩]])
    0 [⟨(1 : Rat)/4, 3/4, 9⟩] [] rfl

/-- C9: the feature encoding is a pure function of the landmark set's
`(x, y)` data.  Two extraction runs whose detected first hands agree on all
`x` and `y` coordinates produce identical outputs, whatever the images, the
colour conversion, the rest of the detector output, or the unused `z`
coordinates are — in particular the same landmark set always encodes to the
same 42-element vector. -/
theorem C9_encoder_deterministic (cvt1 cvt2 : Img → Img)
    (p1 p2 : Img → List Hand) (img1 img2 : Img) (h1 h2 : Hand)
    (r1 r2 : List Hand)
    (hd1 : p1 (cvt1 img1) = h1 :: r1) (hd2 : p2 (cvt2 img2) = h2 :: r2)
    (hxy : h1.map (fun lm => (lm.x, lm.y)) = h2.map (fun lm => (lm.x, lm.y))) :
    extract_landmarks cvt1 p1 img1 = extract_landmarks cvt2 p2 img2 := by
  simp only [extract_landmarks, hd1, hd2, flattenCoords_congr h1 h2 hxy]

/-- Witness for C9: two hands equal on `(x, y)` but with different `z`
encode identically. -/
theorem C9_encoder_deterministic_witness :
    extract_landmarks id (fun _ => [[⟨(1 : Rat)/3, 2/3, 5⟩]]) 0
      = extract_landmarks (fun n => n + 1) (fun _ => [[⟨(1 : Rat)/3, 2/3, 7⟩], []]) 4 :=
  C9_encoder_deterministic id (fun n => n + 1)
    (fun _ => [[⟨(1 : Rat)/3, 2/3, 5⟩]]) (fun _ => [[⟨(1 : Rat)/3, 2/3, 7⟩], []])
    0 4 [⟨(1 : Rat)/3, 2/3, 5⟩] [⟨(1 : Rat)/3, 2/3, 7⟩] [] [[]]
    rfl rfl rfl

/-- C7: the trainer's fold computation contradicts the claim (and the code's
own comment).  On raw per-class counts `[3, 10, 12]`, the class with 3
samples is dropped by the rare-class filter, every remaining class has at
least 10 samples — so by the claim the fold count should stay 5 — yet the
code computes folds from the minimum of the pre-filter counts and yields 3. -/
theorem C7_cv_folds_uses_prefilter_counts :
    cv_folds [3, 10, 12] = 3 ∧
    filteredCounts [3, 10, 12] = [10, 12] ∧
    (∀ c ∈ filteredCounts [3, 10, 12], 5 ≤ c) ∧
    cv_folds_claim [3, 10, 12] = 5 := by decide

/-- C10: the static route serves a file only when the path is exactly one of
the three allowed names, or starts with `assets/` and contains no `..`
anywhere; every other path (and every path when the frontend directory is
absent) gets the 404 error, so no served path ever contains `..`. -/
theorem C10_static_route_traversal_safe (dirExists : Bool) (path : List Char) :
    (∀ served, frontend_static dirExists path = .serveFile served →
       served = path ∧
       (path ∈ allowedFiles ∨
         (startsWithAssets path = true ∧ hasDotDot path = false)) ∧
       hasDotDot path = false) ∧
    ((path ∉ allowedFiles ∧
        ¬(startsWithAssets path = true ∧ hasDotDot path = false)) →
       frontend_static dirExists path = .notFound) := by
  constructor
  · intro served hserve
    cases dirExists with
    | false => simp [frontend_static] at hserve
    | true =>
        by_cases hmem : path ∈ allowedFiles
        · simp only [frontend_static, Bool.not_true, Bool.false_eq_true,
            if_false, hmem, if_true, StaticResponse.serveFile.injEq] at hserve
          refine ⟨hserve.symm, Or.inl hmem, ?_⟩
          simp only [allowedFiles, chars, List.mem_cons,
            List.not_mem_nil, or_false] at hmem
          rcases hmem with h | h | h <;> (subst h; decide)
        · cases hs : startsWithAssets path with
          | false => simp [frontend_static, hmem, hs] at hserve
          | true =>
              cases hd : hasDotDot path with
              | true => simp [frontend_static, hmem, hs, hd] at hserve
              | false =>
                  simp only [frontend_static, Bool.not_true, Bool.false_eq_true,
                    if_false, hmem, if_true, hs, hd, Bool.not_false,
                    Bool.and_self, StaticResponse.serveFile.injEq] at hserve
                  exact ⟨hserve.symm, Or.inr ⟨rfl, rfl⟩, rfl⟩
  · rintro ⟨hmem, hcond⟩
    cases dirExists with
    | false => simp [frontend_static]
    | true =>
        cases hs : startsWithAssets path with
        | false => simp [frontend_static, hmem, hs]
        | true =>
            cases hd : hasDotDot path with
            | false => exact (hcond ⟨hs, hd⟩).elim
            | true => simp [frontend_static, hmem, hs, hd]

/-- Witness for C10 at concrete paths: a traversal path under `assets/` is
rejected. -/
theorem C10_static_route_traversal_safe_witness :
    ((chars "assets/../app.py" ∉ allowedFiles ∧
        ¬(startsWithAssets (chars "assets/../app.py") = true ∧
          hasDotDot (chars "assets/../app.py") = false)) →
      frontend_static true (chars "assets/../app.py") = .notFound) ∧
    frontend_static true (chars "assets/../app.py") = .notFound := by
  constructor
  · exact (C10_static_route_traversal_safe true (chars "assets/../app.py")).2
  · exact (C10_static_route_traversal_safe true (chars "assets/../app.py")).2
      ⟨by decide, by decide⟩

/-- C1: when a hand is detected and the classifier returns a probability
row whose top probability is `p`, the 0.3 threshold is a hard cutoff: with
`p ≥ 3/10` the response is 200 with a non-null prediction carrying the
winning label and its confidence; with `p < 3/10` it is 200 with prediction
null and the low-confidence body naming `p` — regardless of which class
wins. -/
theorem C1_confidence_threshold_hard_cutoff (imdecode : Bytes → Option Img)
    (cvtColor : Img → Img) (process : Img → List Hand) (classes : List String)
    (predict_proba : DataFrame → Except String (List Rat))
    (bytes : Bytes) (img : Img) (df : DataFrame) (probs : List Rat) (p : Rat)
    (hdec : imdecode bytes = some img)
    (hdet : extract_landmarks cvtColor process img = some df)
    (hprob : predict_proba df = .ok probs)
    (hmem : p ∈ probs) (hub : ∀ q ∈ probs, q ≤ p) :
    (3 / 10 ≤ p →
      predict (some bytes) imdecode cvtColor process classes predict_proba
        = (200, .predicted (classes.getD (argmax probs) "") p
            (top_predictions classes probs)) ∧
      (predict (some bytes) imdecode cvtColor process classes
          predict_proba).2.prediction
        = some (classes.getD (argmax probs) "")) ∧
    (p < 3 / 10 →
      predict (some bytes) imdecode cvtColor process classes predict_proba
        = (200, .lowConf p (top_predictions classes probs)) ∧
      (predict (some bytes) imdecode cvtColor process classes
          predict_proba).2.prediction = none) := by
  have hbp : probs.getD (argmax probs) 0 = p := getD_argmax_eq_top probs p hmem hub
  have hred := predict_reduce imdecode cvtColor process classes predict_proba
    bytes img df probs hdec hdet hprob
  rw [hbp] at hred
  constructor
  · intro hge
    rw [hred, if_neg (not_lt.mpr hge)]
    exact ⟨rfl, rfl⟩
  · intro hlt
    rw [hred, if_pos hlt]
    exact ⟨rfl, rfl⟩

/-- Witness for C1 on the probability row `[2/10, 8/10]`: the top
probability 8/10 clears the threshold and the prediction is non-null. -/
theorem C1_confidence_threshold_hard_cutoff_witness :
    ((3 : Rat) / 10 ≤ 8 / 10 ∧ (8 : Rat) / 10 ∈ [(2 : Rat) / 10, 8 / 10]) ∧
    (predict (some [0]) (fun _ => some 0) id (fun _ => [[⟨1, 2, 3⟩]])
        ["A", "B"] (fun _ => .ok [(2 : Rat) / 10, 8 / 10])).2.prediction
      = some (["A", "B"].getD (argmax [(2 : Rat) / 10, 8 / 10]) "") := by
  refine ⟨⟨by norm_num, by simp⟩, ?_⟩
  exact ((C1_confidence_threshold_hard_cutoff (fun _ => some 0) id
    (fun _ => [[⟨1, 2, 3⟩]]) ["A", "B"] (fun _ => .ok [(2 : Rat) / 10, 8 / 10])
    [0] 0 ⟨feature_names, flattenCoords [⟨1, 2, 3⟩]⟩ [(2 : Rat) / 10, 8 / 10]
    ((8 : Rat) / 10) rfl rfl rfl (by simp)
    (by
      intro q hq
      rcases List.mem_cons.mp hq with h | h
      · rw [h]; norm_num
      · rw [List.mem_singleton] at h
        exact le_of_eq h)).1 (by norm_num)).2

/-- C3: the `/predict` endpoint returns 400 with the error body
`missing frame` when the multipart field is absent, 400 with the body
`invalid image` when the bytes fail to decode (whatever the detector and
classifier would do — no classification is attempted), and 200 with
prediction null and message `no hand detected` when the image decodes but
the detector finds no hand. -/
theorem C3_input_validation_statuses (imdecode : Bytes → Option Img)
    (cvtColor : Img → Img) (process : Img → List Hand) (classes : List String)
    (predict_proba : DataFrame → Except String (List Rat)) :
    (predict none imdecode cvtColor process classes predict_proba
       = (400, .errorBody "missing frame")) ∧
    (∀ bytes, imdecode bytes = none →
       ∀ (cvt' : Img → Img) (process' : Img → List Hand)
         (classes' : List String)
         (proba' : DataFrame → Except String (List Rat)),
         predict (some bytes) imdecode cvt' process' classes' proba'
           = (400, .errorBody "invalid image")) ∧
    (∀ bytes img, imdecode bytes = some img → process (cvtColor img) = [] →
       predict (some bytes) imdecode cvtColor process classes predict_proba
         = (200, .noHand)) := by
  refine ⟨rfl, ?_, ?_⟩
  · intro bytes hdec cvt' process' classes' proba'
    simp only [predict, hdec]
  · intro bytes img hdec hnone
    simp only [predict, hdec, extract_landmarks, hnone]

/-- Witness for C3 at concrete requests: a missing field, an undecodable
blob, and a decodable image with no hand. -/
theorem C3_input_validation_statuses_witness :
    (predict none (fun _ => none) id (fun _ => []) [] (fun _ => .ok [])
       = (400, .errorBody "missing frame")) ∧
    (predict (some [7]) (fun _ => none) id (fun _ => []) [] (fun _ => .ok [])
       = (400, .errorBody "invalid image")) ∧
    (predict (some [7]) (fun _ => some 0) id (fun _ => []) [] (fun _ => .ok [])
       = (200, .noHand)) := by
  refine ⟨?_, ?_, ?_⟩
  · exact (C3_input_validation_statuses (fun _ => none) id (fun _ => []) []
      (fun _ => .ok [])).1
  · exact (C3_input_validation_statuses (fun _ => none) id (fun _ => []) []
      (fun _ => .ok [])).2.1 [7] rfl id (fun _ => []) [] (fun _ => .ok [])
  · exact (C3_input_validation_statuses (fun _ => some 0) id (fun _ => []) []
      (fun _ => .ok [])).2.2 [7] 0 rfl rfl

/-- C5 as stated is false on the code: at a concrete request whose detector
finds two hands (more than one detectable hand), the handler classifies the
first hand and returns a non-null prediction, not a null-prediction
response. -/
theorem C5_multi_hand_counterexample :
    ((fun _ => [[(⟨(1 : Rat)/2, 1/2, 0⟩ : Landmark)],
        [⟨(1 : Rat)/4, 1/4, 0⟩]]) (0 : Img)).length = 2 ∧
    (predict (some [0]) (fun _ => some 0) id
        (fun _ => [[⟨(1 : Rat)/2, 1/2, 0⟩], [⟨(1 : Rat)/4, 1/4, 0⟩]])
        ["A", "B", "C"]
        (fun _ => .ok [(9 : Rat)/10, 1/20, 1/20])).2.prediction ≠ none := by
  refine ⟨rfl, ?_⟩
  have hred := predict_reduce (fun _ => some 0) id
    (fun _ => [[⟨(1 : Rat)/2, 1/2, 0⟩], [⟨(1 : Rat)/4, 1/4, 0⟩]])
    ["A", "B", "C"] (fun _ => .ok [(9 : Rat)/10, 1/20, 1/20]) [0] 0
    ⟨feature_names, flattenCoords [⟨(1 : Rat)/2, 1/2, 0⟩]⟩
    [(9 : Rat)/10, 1/20, 1/20] rfl rfl rfl
  have hargmax : argmax [(9 : Rat)/10, 1/20, 1/20] = 0 := by
    norm_num [argmax, argmaxAux]
  rw [hred, hargmax]
  norm_num [RespBody.prediction]
  exact Option.some_ne_none "A"

/-- C5 amended: when no hand is detected the endpoint returns 200 with
prediction null and the `no hand detected` message; when more than one hand
is detected only the first is used — the response is the same as if the
detector had returned just that hand — and every outcome is a returned
response (the total model never raises). -/
theorem C5_zero_hand_null_first_hand_used (imdecode : Bytes → Option Img)
    (cvtColor : Img → Img) (process : Img → List Hand) (classes : List String)
    (predict_proba : DataFrame → Except String (List Rat))
    (bytes : Bytes) (img : Img) (hdec : imdecode bytes = some img) :
    (process (cvtColor img) = [] →
       predict (some bytes) imdecode cvtColor process classes predict_proba
         = (200, .noHand)) ∧
    (∀ hand rest, process (cvtColor img) = hand :: rest →
       predict (some bytes) imdecode cvtColor process classes predict_proba
         = predict (some bytes) imdecode cvtColor (fun _ => [hand]) classes
             predict_proba) := by
  constructor
  · intro hnone
    simp only [predict, hdec, extract_landmarks, hnone]
  · intro hand rest hdet
    simp only [predict, hdec, extract_landmarks, hdet]

/-- Witness for the amended C5: a zero-hand request yields the null
response, and a two-hand request behaves as the one-hand request on the
first hand. -/
theorem C5_zero_hand_null_first_hand_used_witness :
    (predict (some [0]) (fun _ => some 0) id (fun _ => []) []
       (fun _ => .ok []) = (200, .noHand)) ∧
    (predict (some [0]) (fun _ => some 0) id
        (fun _ => [[(⟨1, 2, 3⟩ : Landmark)], []]) ["A"] (fun _ => .ok [1])
      = predict (some [0]) (fun _ => some 0) id
          (fun _ => [[(⟨1, 2, 3⟩ : Landmark)]]) ["A"] (fun _ => .ok [1])) := by
  constructor
  · exact (C5_zero_hand_null_first_hand_used (fun _ => some 0) id
      (fun _ => []) [] (fun _ => .ok []) [0] 0 rfl).1 rfl
  · exact (C5_zero_hand_null_first_hand_used (fun _ => some 0) id
      (fun _ => [[⟨1, 2, 3⟩], []]) ["A"] (fun _ => .ok [1]) [0] 0 rfl).2
      [⟨1, 2, 3⟩] [[]] rfl

/-- C6: whenever a hand is detected and the classifier returns at least 3
probabilities, the response (low-confidence or accepted branch alike)
carries a top-predictions list of length exactly 3, sorted by non-increasing
confidence, whose first entry has the best (maximal) confidence; when the
maximum is attained at a unique index the first entry's label is the winning
label itself. -/
theorem C6_top3_sorted_best_first (imdecode : Bytes → Option Img)
    (cvtColor : Img → Img) (process : Img → List Hand) (classes : List String)
    (predict_proba : DataFrame → Except String (List Rat))
    (bytes : Bytes) (img : Img) (df : DataFrame) (probs : List Rat)
    (hdec : imdecode bytes = some img)
    (hdet : extract_landmarks cvtColor process img = some df)
    (hprob : predict_proba df = .ok probs)
    (h3 : 3 ≤ probs.length) :
    ∃ top,
      ((predict (some bytes) imdecode cvtColor process classes
            predict_proba).2
          = .lowConf (probs.getD (argmax probs) 0) top ∨
        (predict (some bytes) imdecode cvtColor process classes
            predict_proba).2
          = .predicted (classes.getD (argmax probs) "")
              (probs.getD (argmax probs) 0) top) ∧
      top.length = 3 ∧
      List.Pairwise (fun a b => b.2 ≤ a.2) top ∧
      ∃ entry, top.head? = some entry ∧
        entry.2 = probs.getD (argmax probs) 0 ∧
        ((∀ i, i < probs.length →
            probs.getD i 0 = probs.getD (argmax probs) 0 → i = argmax probs) →
          entry.1 = classes.getD (argmax probs) "") := by
  obtain ⟨hlen, hsort, L, hL, hhead, hub⟩ := top_predictions_spec classes probs h3
  have hred := predict_reduce imdecode cvtColor process classes predict_proba
    bytes img df probs hdec hdet hprob
  have hmemL : probs.getD L 0 ∈ probs := by
    rw [List.getD_eq_getElem probs 0 hL]
    exact List.getElem_mem hL
  have heq : probs.getD L 0 = probs.getD (argmax probs) 0 :=
    (getD_argmax_eq_top probs (probs.getD L 0) hmemL hub).symm
  refine ⟨top_predictions classes probs, ?_, hlen, hsort,
    (classes.getD L "", probs.getD L 0), hhead, heq, ?_⟩
  · rw [hred]
    by_cases hlt : probs.getD (argmax probs) 0 < 3 / 10
    · left; rw [if_pos hlt]
    · right; rw [if_neg hlt]
  · intro huniq
    have hLa : L = argmax probs := huniq L hL heq
    simp [hLa]

/-- Witness for C6 on the 3-class probability row `[2/10, 5/10, 3/10]`. -/
theorem C6_top3_sorted_best_first_witness :
    ∃ top,
      ((predict (some [0]) (fun _ => some 0) id (fun _ => [[⟨1, 2, 3⟩]])
            ["A", "B", "C"]
            (fun _ => .ok [(2 : Rat)/10, 5/10, 3/10])).2
          = .lowConf ([(2 : Rat)/10, 5/10, 3/10].getD
              (argmax [(2 : Rat)/10, 5/10, 3/10]) 0) top ∨
        (predict (some [0]) (fun _ => some 0) id (fun _ => [[⟨1, 2, 3⟩]])
            ["A", "B", "C"]
            (fun _ => .ok [(2 : Rat)/10, 5/10, 3/10])).2
          = .predicted (["A", "B", "C"].getD
                (argmax [(2 : Rat)/10, 5/10, 3/10]) "")
              ([(2 : Rat)/10, 5/10, 3/10].getD
                (argmax [(2 : Rat)/10, 5/10, 3/10]) 0) top) ∧
      top.length = 3 ∧
      List.Pairwise (fun a b => b.2 ≤ a.2) top ∧
      ∃ entry, top.head? = some entry ∧
        entry.2 = [(2 : Rat)/10, 5/10, 3/10].getD
            (argmax [(2 : Rat)/10, 5/10, 3/10]) 0 ∧
        ((∀ i, i < ([(2 : Rat)/10, 5/10, 3/10] : List Rat).length →
            [(2 : Rat)/10, 5/10, 3/10].getD i 0
              = [(2 : Rat)/10, 5/10, 3/10].getD
                  (argmax [(2 : Rat)/10, 5/10, 3/10]) 0 →
            i = argmax [(2 : Rat)/10, 5/10, 3/10]) →
          entry.1 = ["A", "B", "C"].getD
              (argmax [(2 : Rat)/10, 5/10, 3/10]) "") :=
  C6_top3_sorted_best_first (fun _ => some 0) id (fun _ => [[⟨1, 2, 3⟩]])
    ["A", "B", "C"] (fun _ => .ok [(2 : Rat)/10, 5/10, 3/10]) [0] 0
    ⟨feature_names, flattenCoords [⟨1, 2, 3⟩]⟩ [(2 : Rat)/10, 5/10, 3/10]
    rfl rfl rfl (by simp)

/-- C8: if the classifier raises during classification of a detected hand,
the endpoint returns HTTP 500 whose error field is the exception's text
verbatim, with no sanitization. -/
theorem C8_exception_text_verbatim (imdecode : Bytes → Option Img)
    (cvtColor : Img → Img) (process : Img → List Hand) (classes : List String)
    (predict_proba : DataFrame → Except String (List Rat))
    (bytes : Bytes) (img : Img) (df : DataFrame) (e : String)
    (hdec : imdecode bytes = some img)
    (hdet : extract_landmarks cvtColor process img = some df)
    (herr : predict_proba df = .error e) :
    predict (some bytes) imdecode cvtColor process classes predict_proba
      = (500, .errorBody e) := by
  simp only [predict, hdec, hdet, herr]

/-- Witness for C8 with a concrete exception text. -/
theorem C8_exception_text_verbatim_witness :
    predict (some [0]) (fun _ => some 0) id (fun _ => [[⟨1, 2, 3⟩]]) ["A"]
        (fun _ => .error "X has 42 features, but expects 84")
      = (500, .errorBody "X has 42 features, but expects 84") :=
  C8_exception_text_verbatim (fun _ => some 0) id (fun _ => [[⟨1, 2, 3⟩]])
    ["A"] (fun _ => .error "X has 42 features, but expects 84") [0] 0
    ⟨feature_names, flattenCoords [⟨1, 2, 3⟩]⟩
    "X has 42 features, but expects 84" rfl rfl rfl

end ASL
